import Mathlib

/-!
Verification of the accumulation-and-patching engine of the
2026-3D-SEM-SEG-DISTILLATION repository (Streamlit app layer).

The authoritative source files are `app/services/patching_service.py`,
`app/services/data_service.py`, `app/utils/color_utils.py` and
`app/config.py`.  Collaborator classes imported from outside the app layer
(`PointceptDataset`, `PointCloudAccumulator`, the accumulation strategies,
the frame patcher and `group_instances_across_frames`) are not in the
repository snapshot; they are modelled from the specification, as marked in
their doc comments.

Point clouds are modelled as lists of points, each point a list of rational
channel values; segment labels at the service boundary are the instance-id
strings the service itself uses.  Fallible collaborator calls are modelled
with `Except DataError`.
-/

/-- A point cloud at the patching-service boundary: a list of points, each a
list of per-point channel values (position plus optional extra channels). -/
abbrev PC := List (List ℚ)

/-- Errors surfaced by collaborators: `io` for dataset load/save failures
(spec section 7 category 3) and `malformed` for malformed-input contract
violations (spec section 7 category 2). -/
inductive DataError
  | io (msg : String)
  | malformed (msg : String)
deriving DecidableEq

/-- A rigid transform from a frame's coordinates to the scene-global
reference frame: a 3x3 rotation and a translation vector. -/
structure Pose where
  rotation : List (List ℚ)
  translation : List ℚ
deriving DecidableEq

/-- Apply a pose to a single point: rotate-and-translate the first three
channels, keeping any extra channels untouched. -/
def Pose.apply (p : Pose) (pt : List ℚ) : List ℚ :=
  match pt with
  | x :: y :: z :: rest =>
      let row := fun i =>
        let r := (p.rotation.getD i [])
        r.getD 0 0 * x + r.getD 1 0 * y + r.getD 2 0 * z + p.translation.getD i 0
      row 0 :: row 1 :: row 2 :: rest
  | other => other

/-- The closed set of accumulation strategies
(`default_accumulator_strategy.py`, `greedy_grid_accumulator_strategy.py`
outside the snapshot; the set itself is fixed by
`PatchingService._get_strategy`). -/
inductive AccumulationStrategy
  | DefaultAccumulatorStrategy
  | GreedyGridAccumulatorStrategy
deriving DecidableEq

/-- Modelled from the spec: the common `accumulate` contract (section 4.2).
Every sampled observation is transformed into the reference coordinate frame
via its pose and the results are concatenated in frame-sampling order.  The
GreedyGrid variant additionally runs a greedy voxel-correspondence offset
search whose internals the spec leaves open (section 9); it is modelled at
its documented degenerate fallback, the identity offset, which leaves the
pose-transformed concatenation unchanged. -/
def AccumulationStrategy.accumulate (s : AccumulationStrategy)
    (observations : List PC) (poses : List Pose) : PC :=
  match s with
  | .DefaultAccumulatorStrategy =>
      ((observations.zip poses).map (fun op => op.1.map op.2.apply)).flatten
  | .GreedyGridAccumulatorStrategy =>
      ((observations.zip poses).map (fun op => op.1.map op.2.apply)).flatten

/-- `PatchingService._get_strategy` (patching_service.py lines 34-45):
`greedy_grid` selects the GreedyGrid strategy, every other name falls
through to the Default strategy. -/
def PatchingService.get_strategy (strategy_name : String) : AccumulationStrategy :=
  if strategy_name = "greedy_grid" then .GreedyGridAccumulatorStrategy
  else .DefaultAccumulatorStrategy

/-- Modelled from the spec: the Frame Patcher's mutable working copy of one
frame's point cloud and segment labels (section 4.4).  Labels are the
instance-id strings used at the service boundary. -/
structure FramePatcher where
  frame : PC
  segments : List String
deriving DecidableEq

/-- Modelled from the spec: Frame Patcher `patch_instance` (section 4.4).
Remove every point whose current label equals `instance_id`, then append the
replacement points, each tagged `instance_id`.  A point/segment length
mismatch in the working state is malformed input and fatal (section 7
category 2); an instance absent from the frame is a true no-op. -/
def FramePatcher.patch_instance (p : FramePatcher) (instance_id : String)
    (replacement : PC) : Except DataError FramePatcher :=
  if p.frame.length = p.segments.length then
    let kept := (p.frame.zip p.segments).filter (fun q => q.2 ≠ instance_id)
    Except.ok { frame := kept.map Prod.fst ++ replacement,
                segments := kept.map Prod.snd ++ replacement.map (fun _ => instance_id) }
  else Except.error (DataError.malformed "point/segment count mismatch")

/-- Modelled from the spec: the dataset collaborator interface consumed by
the core (section 6), restricted to what `patch_frame` and the Accumulator
call.  Every operation may raise (section 7 category 3). -/
structure PointceptDataset where
  load_frame_patcher : String → String → Except DataError FramePatcher
  get_instance_points : String → String → String → Except DataError PC
  get_frame_pose : String → String → Except DataError Pose

/-- Association-list lookup for the grouped-instances mapping
(instance id to ordered frame-id list). -/
def lookupGrouped (g : List (String × List String)) (k : String) :
    Option (List String) :=
  match g with
  | [] => none
  | p :: rest => if p.1 = k then some p.2 else lookupGrouped rest k

/-- Sample every `step`-th element of a list (indices 0, step, 2*step, ...),
the model of Python slicing `frames[::step]`. -/
def sampleEveryStep (step : ℕ) (l : List α) : List α :=
  (l.enum.filter (fun p => p.1 % step == 0)).map Prod.snd

/-- Modelled from the spec: the Point Cloud Accumulator's configuration
(section 4.3): the frame-sampling stride, the grouped-instances index and
the dataset collaborator, exactly the constructor arguments at
patching_service.py lines 66-70. -/
structure PointCloudAccumulator where
  step : ℕ
  grouped_instances : List (String × List String)
  dataset : PointceptDataset

/-- Modelled from the spec: `Accumulator.merge` (section 4.3).  An instance
id absent from the grouped-instances mapping yields an empty point set, not
an error; otherwise the instance's frame list is sampled at the configured
stride, each sampled frame's instance points and pose are retrieved from the
dataset, and merging is delegated to the strategy's `accumulate`. -/
def PointCloudAccumulator.merge (acc : PointCloudAccumulator)
    (scene_id instance_id : String)
    (accumulation_strategy : AccumulationStrategy) : Except DataError PC :=
  match lookupGrouped acc.grouped_instances instance_id with
  | none => Except.ok []
  | some frame_ids => do
      let sampled := sampleEveryStep acc.step frame_ids
      let observations ← sampled.mapM
        (fun f => acc.dataset.get_instance_points scene_id f instance_id)
      let poses ← sampled.mapM (fun f => acc.dataset.get_frame_pose scene_id f)
      Except.ok (accumulation_strategy.accumulate observations poses)

/-- The app configuration surface relevant to the service (config.py):
the frame-sampling stride `ACCUMULATION_STEP`. -/
structure Config where
  ACCUMULATION_STEP : ℕ

/-- The shipped configuration value `ACCUMULATION_STEP = 3` (config.py line 9). -/
def appConfig : Config := { ACCUMULATION_STEP := 3 }

/-- The accumulator construction performed by `PatchingService.patch_frame`
(patching_service.py lines 65-70): the accumulator is built with the
configured stride, the caller's grouped-instances mapping and the service's
dataset. -/
def PatchingService.make_accumulator (cfg : Config) (ds : PointceptDataset)
    (grouped_instances : List (String × List String)) : PointCloudAccumulator :=
  { step := cfg.ACCUMULATION_STEP,
    grouped_instances := grouped_instances,
    dataset := ds }

/-- One invocation of the progress callback: the fraction and message passed
to it. -/
structure ProgressEvent where
  fraction : ℚ
  message : String
deriving DecidableEq

/-- The state threaded through `patch_frame`'s per-instance loop: the frame
patcher's working state, the trace of callback invocations, the traces of
collaborator calls, and an allocation store modelling distinct numpy
buffers (`mergedBufs` holds the ids of buffers returned by
`accumulator.merge`, `patchedBufs` the ids of the `np.copy` buffers handed
to `patch_instance`; `store` maps each id to its contents). -/
structure LoopState where
  patcher : FramePatcher
  events : List ProgressEvent
  mergeCalls : List String
  patchCalls : List String
  mergedBufs : List ℕ
  patchedBufs : List ℕ
  store : List PC
deriving DecidableEq

/-- Invoke the progress callback if one was supplied (recording the event);
with no callback this is the identity, mirroring `if progress_callback:`. -/
def emitProgress (pb : Bool) (st : LoopState) (fraction : ℚ) (message : String) :
    LoopState :=
  if pb then { st with events := st.events ++ [⟨fraction, message⟩] } else st

/-- One iteration of the loop at patching_service.py lines 77-94: report
progress `i / total`, skip the instance if it is not a key of the
grouped-instances mapping, otherwise merge, allocate the merged buffer and
an independent `np.copy` of it, and patch the frame with the copy. -/
def PatchingService.patchStep (acc : PointCloudAccumulator)
    (strategy : AccumulationStrategy) (scene_id : String) (pb : Bool)
    (total : ℕ) (i : ℕ) (instance_id : String) (st : LoopState) :
    Except DataError LoopState :=
  let st1 := emitProgress pb st ((i : ℚ) / (total : ℚ))
    ("Patching instance " ++ instance_id ++ "...")
  if (lookupGrouped acc.grouped_instances instance_id).isNone then
    Except.ok st1
  else
    match acc.merge scene_id instance_id strategy with
    | Except.error e => Except.error e
    | Except.ok accumulated_pc =>
        match st1.patcher.patch_instance instance_id accumulated_pc with
        | Except.error e => Except.error e
        | Except.ok patcher1 =>
            Except.ok { patcher := patcher1,
                        events := st1.events,
                        mergeCalls := st1.mergeCalls ++ [instance_id],
                        patchCalls := st1.patchCalls ++ [instance_id],
                        mergedBufs := st1.mergedBufs ++ [st1.store.length],
                        patchedBufs := st1.patchedBufs ++ [st1.store.length + 1],
                        store := st1.store ++ [accumulated_pc, accumulated_pc] }

/-- The per-instance loop of `patch_frame` (patching_service.py lines
77-94), driving `patchStep` over `instance_ids` in the order given with the
running index `i`. -/
def PatchingService.patchLoop (acc : PointCloudAccumulator)
    (strategy : AccumulationStrategy) (scene_id : String) (pb : Bool)
    (total : ℕ) : ℕ → List String → LoopState → Except DataError LoopState
  | _, [], st => Except.ok st
  | i, instance_id :: rest, st =>
      match PatchingService.patchStep acc strategy scene_id pb total i instance_id st with
      | Except.error e => Except.error e
      | Except.ok st1 =>
          PatchingService.patchLoop acc strategy scene_id pb total (i + 1) rest st1

/-- The observable outcome of `patch_frame`: the final patcher state, the
returned pair `(patcher.frame, patcher._segments)` (line 100), the callback
trace and the collaborator-call and buffer traces. -/
structure PatchOutcome where
  patcher : FramePatcher
  result : PC × List String
  events : List ProgressEvent
  mergeCalls : List String
  patchCalls : List String
  mergedBufs : List ℕ
  patchedBufs : List ℕ
  store : List PC
deriving DecidableEq

/-- `PatchingService.patch_frame` (patching_service.py lines 47-100):
construct the accumulator with the configured stride, load the frame
patcher, run the per-instance loop, report completion, and return the
patcher's point cloud and segments. -/
def PatchingService.patch_frame (cfg : Config) (ds : PointceptDataset)
    (strategy : AccumulationStrategy) (scene_id frame_id : String)
    (instance_ids : List String)
    (grouped_instances : List (String × List String))
    (progress_callback : Bool) : Except DataError PatchOutcome :=
  let accumulator := PatchingService.make_accumulator cfg ds grouped_instances
  match ds.load_frame_patcher scene_id frame_id with
  | Except.error e => Except.error e
  | Except.ok patcher =>
      let total := instance_ids.length
      let st0 : LoopState :=
        { patcher := patcher, events := [], mergeCalls := [], patchCalls := [],
          mergedBufs := [], patchedBufs := [], store := [] }
      match PatchingService.patchLoop accumulator strategy scene_id
          progress_callback total 0 instance_ids st0 with
      | Except.error e => Except.error e
      | Except.ok stF =>
          let stF := emitProgress progress_callback stF 1 "Patching complete!"
          Except.ok { patcher := stF.patcher,
                      result := (stF.patcher.frame, stF.patcher.segments),
                      events := stF.events,
                      mergeCalls := stF.mergeCalls,
                      patchCalls := stF.patchCalls,
                      mergedBufs := stF.mergedBufs,
                      patchedBufs := stF.patchedBufs,
                      store := stF.store }

/-- Modelled from the spec: the on-disk dataset as seen through the data
service (section 6): per-scene frame lists in canonical order, per-frame
point clouds of shape (D, N) stored row-per-channel, and the optional
contents of each frame's `segment.npy` (`none` when the file does not
exist). -/
structure DataModel where
  scenes : List String
  frames : String → List String
  point_cloud : String → String → List (List ℚ)
  segment_file : String → String → Option (List Int)

/-- `get_dataset` (data_service.py lines 18-28): resolve the data root to
its dataset; the environment `env` models the filesystem keyed by root. -/
def get_dataset (env : String → DataModel) (data_root : String) : DataModel :=
  env data_root

/-- `get_frame_point_cloud` (data_service.py lines 64-79). -/
def get_frame_point_cloud (env : String → DataModel)
    (data_root scene_id frame_id : String) : List (List ℚ) :=
  (get_dataset env data_root).point_cloud scene_id frame_id

/-- `pc.shape[1]` of a (D, N) channel-major point cloud: the common length
of the channel rows (the point count N). -/
def shape1 (pc : List (List ℚ)) : ℕ :=
  match pc with
  | [] => 0
  | r :: _ => r.length

/-- `get_frame_segments` (data_service.py lines 82-105): return the
contents of `segment.npy` when the file exists, otherwise an array of -1
(unlabeled) of the frame's point count. -/
def get_frame_segments (env : String → DataModel)
    (data_root scene_id frame_id : String) : List Int :=
  match (get_dataset env data_root).segment_file scene_id frame_id with
  | some arr => arr
  | none =>
      List.replicate (shape1 (get_frame_point_cloud env data_root scene_id frame_id)) (-1)

/-- `EXCLUDED_SEGMENT_CLASSES` (config.py): the label codes that denote
semantic classes or the unlabeled sentinel, never instances. -/
def EXCLUDED_SEGMENT_CLASSES : List Int :=
  [-1, 0, 1, 2, 4, 5, 9, 10, 12, 15, 20, 21, 17, 13]

/-- Distinct values of a label list in order of first occurrence. -/
def distinctLabels (l : List Int) : List Int :=
  l.foldl (fun acc x => if x ∈ acc then acc else acc ++ [x]) []

/-- Modelled from the spec: the labels of one frame that are valid instance
ids (section 4.1): the distinct segment labels minus the configured
semantic-class codes and the unlabeled sentinel. -/
def instanceLabels (segs : List Int) : List Int :=
  (distinctLabels segs).filter (fun l => l ∉ EXCLUDED_SEGMENT_CLASSES)

/-- Append `frame_id` to instance `l`'s frame list, creating the entry at
the end on first sight (frame order preserved, no duplicates per frame). -/
def appendFrameTo (g : List (Int × List String)) (l : Int) (frame_id : String) :
    List (Int × List String) :=
  match g with
  | [] => [(l, [frame_id])]
  | p :: rest =>
      if p.1 = l then (p.1, p.2 ++ [frame_id]) :: rest
      else p :: appendFrameTo rest l frame_id

/-- Modelled from the spec: `group_instances_across_frames`
(`src/utils/dataset_helper.py`, outside the snapshot; section 4.1): for
each frame in scene order, collect the distinct labels that are valid
instance ids and append the frame id to each such instance's list. -/
def group_instances_across_frames (scene_id : String) (dataset : DataModel) :
    List (Int × List String) :=
  (dataset.frames scene_id).foldl
    (fun acc frame_id =>
      let segs :=
        match dataset.segment_file scene_id frame_id with
        | some arr => arr
        | none => List.replicate (shape1 (dataset.point_cloud scene_id frame_id)) (-1)
      (instanceLabels segs).foldl (fun acc2 l => appendFrameTo acc2 l frame_id) acc)
    []

/-- `group_instances_for_scene` (data_service.py lines 155-170): delegate
to `group_instances_across_frames` and convert the instance-id keys to
strings. -/
def group_instances_for_scene (env : String → DataModel)
    (data_root scene_id : String) : List (String × List String) :=
  let dataset := get_dataset env data_root
  let grouped := group_instances_across_frames scene_id dataset
  grouped.map (fun p => (toString p.1, p.2))

/-- `np.min` over a nonempty list (0 on the empty list, unreachable in the
claims). -/
def npMin : List ℚ → ℚ
  | [] => 0
  | x :: xs => xs.foldl min x

/-- `np.max` over a nonempty list (0 on the empty list, unreachable in the
claims). -/
def npMax : List ℚ → ℚ
  | [] => 0
  | x :: xs => xs.foldl max x

/-- The z-channel extraction of `colorize_by_height` (color_utils.py lines
81-85): `points[2, :]` when `points.shape[0]` is 3 or 4 (channel-major),
`points[:, 2]` otherwise (point-major). -/
def heightChannel (points : List (List ℚ)) : List ℚ :=
  if points.length = 3 ∨ points.length = 4 then points.getD 2 []
  else points.map (fun r => r.getD 2 0)

/-- `colorize_by_height` (color_utils.py lines 68-97): normalize the
z-channel to [0, 1] over the `[z_min, z_max]` range (the data's own min and
max when left at `None`); a zero range returns `np.zeros_like(z)`. -/
def colorize_by_height (points : List (List ℚ))
    (z_min z_max : Option ℚ) : List ℚ :=
  let z := heightChannel points
  let zmin := z_min.getD (npMin z)
  let zmax := z_max.getD (npMax z)
  let z_range := zmax - zmin
  if z_range = 0 then z.map (fun _ => 0)
  else z.map (fun v => (v - zmin) / z_range)

/-- The identity pose (unit rotation, zero translation). -/
def idPose : Pose :=
  { rotation := [[1, 0, 0], [0, 1, 0], [0, 0, 1]], translation := [0, 0, 0] }

/-- A small well-formed frame-patcher state used to exercise the service on
concrete inputs. -/
def demoPatcher : FramePatcher :=
  { frame := [[0, 0, 0], [1, 1, 1]], segments := ["7", "9"] }

/-- A malformed frame-patcher state (point count differs from
segment-array length), used to exercise the malformed-input failure path. -/
def badPatcher : FramePatcher :=
  { frame := [[0, 0, 0], [1, 1, 1]], segments := ["7"] }

/-- A small always-succeeding dataset collaborator. -/
def demoDataset : PointceptDataset :=
  { load_frame_patcher := fun _ _ => Except.ok demoPatcher,
    get_instance_points := fun _ _ _ => Except.ok [[5]],
    get_frame_pose := fun _ _ => Except.ok idPose }

/-- A dataset collaborator whose frame-patcher load fails. -/
def failLoadDataset : PointceptDataset :=
  { demoDataset with
    load_frame_patcher := fun _ _ => Except.error (DataError.io "missing frame") }

/-- A dataset collaborator whose per-frame instance-point retrieval fails. -/
def failPointsDataset : PointceptDataset :=
  { demoDataset with
    get_instance_points := fun _ _ _ => Except.error (DataError.io "missing points") }

/-- A dataset collaborator whose loaded patcher is malformed. -/
def badPatcherDataset : PointceptDataset :=
  { demoDataset with load_frame_patcher := fun _ _ => Except.ok badPatcher }

/-- A small grouped-instances mapping: instance 7 appears in three frames. -/
def demoGrouped : List (String × List String) :=
  [("7", ["f0", "f2", "f4"])]

/-- A small concrete data model: one scene of two frames; frame f0 has a
segment file, frame f1 does not. -/
def demoDataModel : DataModel :=
  { scenes := ["s0"],
    frames := fun _ => ["f0", "f1"],
    point_cloud := fun _ _ => [[1, 2, 3], [4, 5, 6], [7, 8, 9]],
    segment_file := fun _ f => if f = "f0" then some [7, 7, 0] else none }

/-- A filesystem environment mapping every data root to `demoDataModel`. -/
def demoEnv : String → DataModel := fun _ => demoDataModel

/-- The callback invocations the loop makes over `ids` starting at index
`i`, with denominator `total`: one event per listed instance, skipped or
not, since the callback fires before the membership check. -/
def eventsFor (total : ℕ) : ℕ → List String → List ProgressEvent
  | _, [] => []
  | i, instance_id :: rest =>
      ⟨(i : ℚ) / (total : ℚ), "Patching instance " ++ instance_id ++ "..."⟩
        :: eventsFor total (i + 1) rest

/-- Forget the callback trace of a loop state. -/
def stripEvents (st : LoopState) : LoopState := { st with events := [] }

/-- Forget the callback trace of a patching outcome. -/
def stripOutcomeEvents (o : PatchOutcome) : PatchOutcome := { o with events := [] }

/-- The buffer-allocation invariant of the loop state: every recorded
buffer id is allocated, merged and copied buffers correspond one-to-one,
the copied buffers are pairwise distinct and disjoint from the merged
buffers, and each copy has the same contents as its merged original. -/
def BufInv (st : LoopState) : Prop :=
  (∀ b ∈ st.mergedBufs, b < st.store.length) ∧
  (∀ b ∈ st.patchedBufs, b < st.store.length) ∧
  st.mergedBufs.length = st.patchedBufs.length ∧
  st.patchedBufs.Nodup ∧
  (∀ b ∈ st.patchedBufs, b ∉ st.mergedBufs) ∧
  (∀ k m c, st.mergedBufs.get? k = some m → st.patchedBufs.get? k = some c →
    c ≠ m ∧ st.store.get? c = st.store.get? m)

/-- Decidable equality for `Except` results, used to evaluate the model on
concrete inputs. -/
def Except.decEq {e a : Type} [DecidableEq e] [DecidableEq a] :
    DecidableEq (Except e a) := fun x y =>
  match x, y with
  | .error e1, .error e2 =>
      if h : e1 = e2 then isTrue (by rw [h])
      else isFalse (by intro hc; cases hc; exact h rfl)
  | .error _, .ok _ => isFalse (by intro hc; cases hc)
  | .ok _, .error _ => isFalse (by intro hc; cases hc)
  | .ok a1, .ok a2 =>
      if h : a1 = a2 then isTrue (by rw [h])
      else isFalse (by intro hc; cases hc; exact h rfl)

instance {e a : Type} [DecidableEq e] [DecidableEq a] :
    DecidableEq (Except e a) := Except.decEq

/-- The frame-patcher state reached after patching instance 7 of
`demoPatcher` with the accumulated demo point. -/
def demoPatchedPatcher : FramePatcher :=
  { frame := [[1, 1, 1], [5]], segments := ["9", "7"] }

/-- The buffer store after one merge-and-copy pair on the demo run. -/
def demoStore : List PC := [[[5]], [[5]]]

/-- The outcome of the demo `patch_frame` run over instances 7 (present) and
999 (absent from the grouping) with no progress callback. -/
def demoOutNoCb : PatchOutcome :=
  { patcher := demoPatchedPatcher,
    result := (demoPatchedPatcher.frame, demoPatchedPatcher.segments),
    events := [],
    mergeCalls := ["7"],
    patchCalls := ["7"],
    mergedBufs := [0],
    patchedBufs := [1],
    store := demoStore }

/-- The outcome of the demo `patch_frame` run over instances 7 (present) and
8 (absent from the grouping) with a progress callback. -/
def demoOutCb : PatchOutcome :=
  { demoOutNoCb with
    events := [⟨((0 : ℕ) : ℚ) / ((2 : ℕ) : ℚ), "Patching instance 7..."⟩,
               ⟨((1 : ℕ) : ℚ) / ((2 : ℕ) : ℚ), "Patching instance 8..."⟩,
               ⟨1, "Patching complete!"⟩] }

theorem emitProgress_patcher (pb : Bool) (st : LoopState) (fr : ℚ) (m : String) :
    (emitProgress pb st fr m).patcher = st.patcher := by
  unfold emitProgress; split <;> rfl

theorem emitProgress_mergeCalls (pb : Bool) (st : LoopState) (fr : ℚ) (m : String) :
    (emitProgress pb st fr m).mergeCalls = st.mergeCalls := by
  unfold emitProgress; split <;> rfl

theorem emitProgress_patchCalls (pb : Bool) (st : LoopState) (fr : ℚ) (m : String) :
    (emitProgress pb st fr m).patchCalls = st.patchCalls := by
  unfold emitProgress; split <;> rfl

theorem emitProgress_mergedBufs (pb : Bool) (st : LoopState) (fr : ℚ) (m : String) :
    (emitProgress pb st fr m).mergedBufs = st.mergedBufs := by
  unfold emitProgress; split <;> rfl

theorem emitProgress_patchedBufs (pb : Bool) (st : LoopState) (fr : ℚ) (m : String) :
    (emitProgress pb st fr m).patchedBufs = st.patchedBufs := by
  unfold emitProgress; split <;> rfl

theorem emitProgress_store (pb : Bool) (st : LoopState) (fr : ℚ) (m : String) :
    (emitProgress pb st fr m).store = st.store := by
  unfold emitProgress; split <;> rfl

/-- C5: `PatchingService._get_strategy` returns the GreedyGrid strategy iff
the name is `greedy_grid`, and the Default strategy for every other string
(including `default` and unrecognized names); it is a total function and
never raises. -/
theorem get_strategy_greedy_iff (s : String) :
    (PatchingService.get_strategy s = AccumulationStrategy.GreedyGridAccumulatorStrategy
      ↔ s = "greedy_grid")
    ∧ (s ≠ "greedy_grid" →
        PatchingService.get_strategy s = AccumulationStrategy.DefaultAccumulatorStrategy) := by
  unfold PatchingService.get_strategy
  by_cases h : s = "greedy_grid" <;> simp [h]

theorem get_strategy_greedy_iff_witness :
    PatchingService.get_strategy "default" = AccumulationStrategy.DefaultAccumulatorStrategy
    ∧ PatchingService.get_strategy "greedy_grid" = AccumulationStrategy.GreedyGridAccumulatorStrategy :=
  ⟨(get_strategy_greedy_iff "default").2 (by decide),
   (get_strategy_greedy_iff "greedy_grid").1.mpr rfl⟩

/-- C4: the frame-sampling stride is configuration (`ACCUMULATION_STEP`),
and for every positive configured stride `patch_frame`'s accumulator
construction uses exactly that stride; stride 1 samples every frame. -/
theorem make_accumulator_configured_step (cfg : Config) (ds : PointceptDataset)
    (grouped : List (String × List String)) (h : 0 < cfg.ACCUMULATION_STEP) :
    (PatchingService.make_accumulator cfg ds grouped).step = cfg.ACCUMULATION_STEP
    ∧ 0 < (PatchingService.make_accumulator cfg ds grouped).step
    ∧ ∀ (l : List String), sampleEveryStep 1 l = l := by
  refine ⟨rfl, h, ?_⟩
  intro l
  unfold sampleEveryStep
  have hf : l.enum.filter (fun p => p.1 % 1 == 0) = l.enum := by
    apply List.filter_eq_self.mpr
    intro p _
    simp [Nat.mod_one]
  rw [hf, List.enum_map_snd]

theorem make_accumulator_configured_step_witness :
    0 < appConfig.ACCUMULATION_STEP
    ∧ (PatchingService.make_accumulator appConfig demoDataset demoGrouped).step
        = appConfig.ACCUMULATION_STEP
    ∧ sampleEveryStep 1 ["f0", "f2", "f4"] = ["f0", "f2", "f4"] :=
  ⟨by decide,
   (make_accumulator_configured_step appConfig demoDataset demoGrouped (by decide)).1,
   (make_accumulator_configured_step appConfig demoDataset demoGrouped (by decide)).2.2
     ["f0", "f2", "f4"]⟩

/-- C6: for a fixed scene the Instance Grouping Index is deterministic:
two calls to `group_instances_for_scene` with the same data root and scene
id return equal mappings, every instance's frame list included; the model
is a pure function of its inputs, so repeated calls cannot differ or
reorder frame lists. -/
theorem group_instances_for_scene_deterministic (env : String → DataModel)
    (data_root scene_id : String) :
    group_instances_for_scene env data_root scene_id
      = group_instances_for_scene env data_root scene_id
    ∧ ∀ k, lookupGrouped (group_instances_for_scene env data_root scene_id) k
        = lookupGrouped (group_instances_for_scene env data_root scene_id) k :=
  ⟨rfl, fun _ => rfl⟩

/-- C9: when a frame's `segment.npy` is absent, `get_frame_segments`
returns (without raising) an all-(-1) array whose length is the frame's
point count; when the file exists its contents are returned as loaded. -/
theorem get_frame_segments_missing_file (env : String → DataModel)
    (data_root scene_id frame_id : String) :
    ((get_dataset env data_root).segment_file scene_id frame_id = none →
      (get_frame_segments env data_root scene_id frame_id).length
        = shape1 (get_frame_point_cloud env data_root scene_id frame_id)
      ∧ ∀ x ∈ get_frame_segments env data_root scene_id frame_id, x = -1)
    ∧ ∀ arr, (get_dataset env data_root).segment_file scene_id frame_id = some arr →
        get_frame_segments env data_root scene_id frame_id = arr := by
  constructor
  · intro h
    unfold get_frame_segments
    rw [h]
    refine ⟨List.length_replicate _ _, ?_⟩
    intro x hx
    exact List.eq_of_mem_replicate hx
  · intro arr h
    unfold get_frame_segments
    rw [h]

theorem get_frame_segments_missing_file_witness :
    (get_frame_segments demoEnv "root" "s0" "f1").length
      = shape1 (get_frame_point_cloud demoEnv "root" "s0" "f1")
    ∧ (∀ x ∈ get_frame_segments demoEnv "root" "s0" "f1", x = -1)
    ∧ get_frame_segments demoEnv "root" "s0" "f0" = [7, 7, 0] :=
  ⟨((get_frame_segments_missing_file demoEnv "root" "s0" "f1").1 (by decide)).1,
   ((get_frame_segments_missing_file demoEnv "root" "s0" "f1").1 (by decide)).2,
   (get_frame_segments_missing_file demoEnv "root" "s0" "f0").2 [7, 7, 0] (by decide)⟩

/-- C2: patching zero instances returns the frame patcher's initial working
copy unchanged: the same point list (hence point count and per-point
channel values) and the same segment labels as the unpatched frame. -/
theorem patch_frame_empty_roundtrip (cfg : Config) (ds : PointceptDataset)
    (strategy : AccumulationStrategy) (scene_id frame_id : String)
    (grouped : List (String × List String)) (pb : Bool) (p0 : FramePatcher)
    (hload : ds.load_frame_patcher scene_id frame_id = Except.ok p0) :
    ∃ out, PatchingService.patch_frame cfg ds strategy scene_id frame_id []
        grouped pb = Except.ok out
      ∧ out.result.1 = p0.frame ∧ out.result.2 = p0.segments
      ∧ out.result.1.length = p0.frame.length
      ∧ out.result.2.length = p0.segments.length := by
  unfold PatchingService.patch_frame
  rw [hload]
  refine ⟨_, rfl, ?_, ?_, ?_, ?_⟩
  all_goals simp only [emitProgress_patcher]

theorem patch_frame_empty_roundtrip_witness :
    (PatchingService.patch_frame appConfig demoDataset
        AccumulationStrategy.DefaultAccumulatorStrategy "s0" "f0" []
        demoGrouped false).map
      (fun o => o.result) = Except.ok (demoPatcher.frame, demoPatcher.segments) := by
  obtain ⟨out, h1, h2, h3, _, _⟩ :=
    patch_frame_empty_roundtrip appConfig demoDataset
      AccumulationStrategy.DefaultAccumulatorStrategy "s0" "f0" demoGrouped false
      demoPatcher rfl
  rw [h1]
  have hres : out.result = (demoPatcher.frame, demoPatcher.segments) := by
    rw [← h2, ← h3]
  have hmap : (Except.ok out : Except DataError PatchOutcome).map (fun o => o.result)
      = Except.ok out.result := rfl
  rw [hmap, hres]

theorem foldl_min_le_init (xs : List ℚ) : ∀ a : ℚ, xs.foldl min a ≤ a := by
  induction xs with
  | nil => intro a; exact le_refl a
  | cons y ys ih => intro a; exact le_trans (ih (min a y)) (min_le_left a y)

theorem foldl_min_le (xs : List ℚ) : ∀ a v : ℚ, v ∈ xs → xs.foldl min a ≤ v := by
  induction xs with
  | nil => intro a v hv; cases hv
  | cons y ys ih =>
      intro a v hv
      cases hv with
      | head => exact le_trans (foldl_min_le_init ys (min a y)) (min_le_right a y)
      | tail _ hv2 => exact ih (min a y) v hv2

theorem init_le_foldl_max (xs : List ℚ) : ∀ a : ℚ, a ≤ xs.foldl max a := by
  induction xs with
  | nil => intro a; exact le_refl a
  | cons y ys ih => intro a; exact le_trans (le_max_left a y) (ih (max a y))

theorem le_foldl_max (xs : List ℚ) : ∀ a v : ℚ, v ∈ xs → v ≤ xs.foldl max a := by
  induction xs with
  | nil => intro a v hv; cases hv
  | cons y ys ih =>
      intro a v hv
      cases hv with
      | head => exact le_trans (le_max_right a y) (init_le_foldl_max ys (max a y))
      | tail _ hv2 => exact ih (max a y) v hv2

theorem npMin_le (l : List ℚ) (v : ℚ) (hv : v ∈ l) : npMin l ≤ v := by
  cases l with
  | nil => cases hv
  | cons x xs =>
      rcases List.mem_cons.mp hv with rfl | h2
      · exact foldl_min_le_init xs v
      · exact foldl_min_le xs x v h2

theorem le_npMax (l : List ℚ) (v : ℚ) (hv : v ∈ l) : v ≤ npMax l := by
  cases l with
  | nil => cases hv
  | cons x xs =>
      rcases List.mem_cons.mp hv with rfl | h2
      · exact init_le_foldl_max xs v
      · exact le_foldl_max xs x v h2

theorem npMin_le_npMax (l : List ℚ) (h : l ≠ []) : npMin l ≤ npMax l := by
  cases l with
  | nil => exact absurd rfl h
  | cons x xs =>
      exact le_trans (npMin_le (x :: xs) x (List.mem_cons_self x xs))
        (le_npMax (x :: xs) x (List.mem_cons_self x xs))

theorem map_zero_replicate (l : List ℚ) :
    l.map (fun _ => (0 : ℚ)) = List.replicate l.length 0 := by
  induction l with
  | nil => rfl
  | cons x xs ih => simp [List.replicate_succ, ih]

/-- C10: `colorize_by_height` is total on nonempty point clouds: with the
default `z_min`/`z_max`, a zero z-range yields an all-zeros array of the
z-channel's length instead of dividing by zero, and otherwise every
returned value lies in [0, 1]; the length always matches the z-channel. -/
theorem colorize_by_height_total_bounds (points : List (List ℚ))
    (hne : heightChannel points ≠ []) :
    (colorize_by_height points none none).length = (heightChannel points).length
    ∧ (npMax (heightChannel points) - npMin (heightChannel points) = 0 →
        colorize_by_height points none none
          = List.replicate (heightChannel points).length 0)
    ∧ ∀ v ∈ colorize_by_height points none none, 0 ≤ v ∧ v ≤ 1 := by
  unfold colorize_by_height
  simp only [Option.getD_none]
  by_cases h : npMax (heightChannel points) - npMin (heightChannel points) = 0
  · rw [if_pos h]
    refine ⟨by simp, fun _ => map_zero_replicate _, ?_⟩
    intro v hv
    rw [List.mem_map] at hv
    obtain ⟨w, _, rfl⟩ := hv
    exact ⟨le_refl 0, zero_le_one⟩
  · rw [if_neg h]
    have hle : npMin (heightChannel points) ≤ npMax (heightChannel points) :=
      npMin_le_npMax _ hne
    have hlt : 0 < npMax (heightChannel points) - npMin (heightChannel points) :=
      lt_of_le_of_ne (sub_nonneg.mpr hle) (Ne.symm h)
    refine ⟨by simp, fun h0 => absurd h0 h, ?_⟩
    intro v hv
    rw [List.mem_map] at hv
    obtain ⟨w, hw, rfl⟩ := hv
    constructor
    · exact div_nonneg (sub_nonneg.mpr (npMin_le _ w hw)) (le_of_lt hlt)
    · rw [div_le_one hlt]
      have := le_npMax _ w hw
      linarith

theorem colorize_by_height_total_bounds_witness :
    heightChannel [[0, 0], [0, 1], [0, 2]] ≠ []
    ∧ (∀ v ∈ colorize_by_height [[0, 0], [0, 1], [0, 2]] none none, 0 ≤ v ∧ v ≤ 1)
    ∧ colorize_by_height [[1, 1], [1, 1], [1, 1]] none none
        = List.replicate (heightChannel [[1, 1], [1, 1], [1, 1]]).length 0 :=
  ⟨by decide,
   (colorize_by_height_total_bounds [[0, 0], [0, 1], [0, 2]] (by decide)).2.2,
   (colorize_by_height_total_bounds [[1, 1], [1, 1], [1, 1]] (by decide)).2.1
     (by norm_num [heightChannel, npMax, npMin])⟩

theorem patchStep_absent (acc : PointCloudAccumulator) (strategy : AccumulationStrategy)
    (scene_id : String) (pb : Bool) (total i : ℕ) (instance_id : String) (st : LoopState)
    (hl : lookupGrouped acc.grouped_instances instance_id = none) :
    PatchingService.patchStep acc strategy scene_id pb total i instance_id st
      = Except.ok (emitProgress pb st ((i : ℚ) / (total : ℚ))
          ("Patching instance " ++ instance_id ++ "...")) := by
  unfold PatchingService.patchStep
  simp [hl]

theorem patchStep_merge_error (acc : PointCloudAccumulator) (strategy : AccumulationStrategy)
    (scene_id : String) (pb : Bool) (total i : ℕ) (instance_id : String) (st : LoopState)
    (fl : List String) (e : DataError)
    (hl : lookupGrouped acc.grouped_instances instance_id = some fl)
    (hm : acc.merge scene_id instance_id strategy = Except.error e) :
    PatchingService.patchStep acc strategy scene_id pb total i instance_id st
      = Except.error e := by
  unfold PatchingService.patchStep
  simp [hl, hm]

theorem patchStep_patch_error (acc : PointCloudAccumulator) (strategy : AccumulationStrategy)
    (scene_id : String) (pb : Bool) (total i : ℕ) (instance_id : String) (st : LoopState)
    (fl : List String) (pc : PC) (e : DataError)
    (hl : lookupGrouped acc.grouped_instances instance_id = some fl)
    (hm : acc.merge scene_id instance_id strategy = Except.ok pc)
    (hp : st.patcher.patch_instance instance_id pc = Except.error e) :
    PatchingService.patchStep acc strategy scene_id pb total i instance_id st
      = Except.error e := by
  unfold PatchingService.patchStep
  simp [hl, hm, emitProgress_patcher, hp]

theorem patchStep_success (acc : PointCloudAccumulator) (strategy : AccumulationStrategy)
    (scene_id : String) (pb : Bool) (total i : ℕ) (instance_id : String) (st : LoopState)
    (fl : List String) (pc : PC) (p1 : FramePatcher)
    (hl : lookupGrouped acc.grouped_instances instance_id = some fl)
    (hm : acc.merge scene_id instance_id strategy = Except.ok pc)
    (hp : st.patcher.patch_instance instance_id pc = Except.ok p1) :
    PatchingService.patchStep acc strategy scene_id pb total i instance_id st
      = Except.ok
          { patcher := p1,
            events := (emitProgress pb st ((i : ℚ) / (total : ℚ))
              ("Patching instance " ++ instance_id ++ "...")).events,
            mergeCalls := st.mergeCalls ++ [instance_id],
            patchCalls := st.patchCalls ++ [instance_id],
            mergedBufs := st.mergedBufs ++ [st.store.length],
            patchedBufs := st.patchedBufs ++ [st.store.length + 1],
            store := st.store ++ [pc, pc] } := by
  unfold PatchingService.patchStep
  simp [hl, hm, emitProgress_patcher, hp, emitProgress_mergeCalls,
    emitProgress_patchCalls, emitProgress_mergedBufs, emitProgress_patchedBufs,
    emitProgress_store]

theorem patchStep_ok_cases (acc : PointCloudAccumulator) (strategy : AccumulationStrategy)
    (scene_id : String) (pb : Bool) (total i : ℕ) (instance_id : String)
    (st st' : LoopState)
    (h : PatchingService.patchStep acc strategy scene_id pb total i instance_id st
      = Except.ok st') :
    (lookupGrouped acc.grouped_instances instance_id = none ∧
      st' = emitProgress pb st ((i : ℚ) / (total : ℚ))
        ("Patching instance " ++ instance_id ++ "..."))
    ∨ (∃ fl pc p1, lookupGrouped acc.grouped_instances instance_id = some fl
        ∧ acc.merge scene_id instance_id strategy = Except.ok pc
        ∧ st.patcher.patch_instance instance_id pc = Except.ok p1
        ∧ st' = { patcher := p1,
                  events := (emitProgress pb st ((i : ℚ) / (total : ℚ))
                    ("Patching instance " ++ instance_id ++ "...")).events,
                  mergeCalls := st.mergeCalls ++ [instance_id],
                  patchCalls := st.patchCalls ++ [instance_id],
                  mergedBufs := st.mergedBufs ++ [st.store.length],
                  patchedBufs := st.patchedBufs ++ [st.store.length + 1],
                  store := st.store ++ [pc, pc] }) := by
  cases hl : lookupGrouped acc.grouped_instances instance_id with
  | none =>
      left
      rw [patchStep_absent acc strategy scene_id pb total i instance_id st hl] at h
      exact ⟨rfl, (Except.ok.inj h).symm⟩
  | some fl =>
      right
      cases hm : acc.merge scene_id instance_id strategy with
      | error e =>
          rw [patchStep_merge_error acc strategy scene_id pb total i instance_id st
            fl e hl hm] at h
          cases h
      | ok pc =>
          cases hp : st.patcher.patch_instance instance_id pc with
          | error e =>
              rw [patchStep_patch_error acc strategy scene_id pb total i instance_id st
                fl pc e hl hm hp] at h
              cases h
          | ok p1 =>
              refine ⟨fl, pc, p1, rfl, rfl, hp, ?_⟩
              rw [patchStep_success acc strategy scene_id pb total i instance_id st
                fl pc p1 hl hm hp] at h
              exact (Except.ok.inj h).symm

theorem patchLoop_nil (acc : PointCloudAccumulator) (strategy : AccumulationStrategy)
    (scene_id : String) (pb : Bool) (total i : ℕ) (st : LoopState) :
    PatchingService.patchLoop acc strategy scene_id pb total i [] st = Except.ok st := rfl

theorem patchLoop_cons (acc : PointCloudAccumulator) (strategy : AccumulationStrategy)
    (scene_id : String) (pb : Bool) (total i : ℕ) (instance_id : String)
    (rest : List String) (st : LoopState) :
    PatchingService.patchLoop acc strategy scene_id pb total i (instance_id :: rest) st
      = match PatchingService.patchStep acc strategy scene_id pb total i instance_id st with
        | Except.error e => Except.error e
        | Except.ok st1 =>
            PatchingService.patchLoop acc strategy scene_id pb total (i + 1) rest st1 := rfl

theorem patchLoop_step_error (acc : PointCloudAccumulator) (strategy : AccumulationStrategy)
    (scene_id : String) (pb : Bool) (total i : ℕ) (instance_id : String)
    (rest : List String) (st : LoopState) (e : DataError)
    (hs : PatchingService.patchStep acc strategy scene_id pb total i instance_id st
      = Except.error e) :
    PatchingService.patchLoop acc strategy scene_id pb total i (instance_id :: rest) st
      = Except.error e := by
  rw [patchLoop_cons, hs]

theorem patchLoop_calls (acc : PointCloudAccumulator) (strategy : AccumulationStrategy)
    (scene_id : String) (pb : Bool) (total : ℕ) :
    ∀ (ids : List String) (i : ℕ) (st out : LoopState),
      PatchingService.patchLoop acc strategy scene_id pb total i ids st = Except.ok out →
      out.mergeCalls = st.mergeCalls
          ++ ids.filter (fun id => (lookupGrouped acc.grouped_instances id).isSome)
      ∧ out.patchCalls = st.patchCalls
          ++ ids.filter (fun id => (lookupGrouped acc.grouped_instances id).isSome) := by
  intro ids
  induction ids with
  | nil =>
      intro i st out h
      rw [patchLoop_nil] at h
      cases h
      simp
  | cons id rest ih =>
      intro i st out h
      rw [patchLoop_cons] at h
      cases hs : PatchingService.patchStep acc strategy scene_id pb total i id st with
      | error e => rw [hs] at h; cases h
      | ok st1 =>
          rw [hs] at h
          obtain ⟨hm, hp⟩ := ih (i + 1) st1 out h
          rcases patchStep_ok_cases acc strategy scene_id pb total i id st st1 hs with
            ⟨hl, rfl⟩ | ⟨fl, pc, p1, hl, hmk, hpk, rfl⟩
          · rw [hm, hp]
            simp [List.filter_cons, hl, emitProgress_mergeCalls, emitProgress_patchCalls]
          · rw [hm, hp]
            simp [List.filter_cons, hl]

theorem emitProgress_events_true (st : LoopState) (fr : ℚ) (m : String) :
    (emitProgress true st fr m).events = st.events ++ [⟨fr, m⟩] := rfl

theorem patchLoop_events (acc : PointCloudAccumulator) (strategy : AccumulationStrategy)
    (scene_id : String) (total : ℕ) :
    ∀ (ids : List String) (i : ℕ) (st out : LoopState),
      PatchingService.patchLoop acc strategy scene_id true total i ids st = Except.ok out →
      out.events = st.events ++ eventsFor total i ids := by
  intro ids
  induction ids with
  | nil =>
      intro i st out h
      rw [patchLoop_nil] at h
      cases h
      simp [eventsFor]
  | cons id rest ih =>
      intro i st out h
      rw [patchLoop_cons] at h
      cases hs : PatchingService.patchStep acc strategy scene_id true total i id st with
      | error e => rw [hs] at h; cases h
      | ok st1 =>
          rw [hs] at h
          have he := ih (i + 1) st1 out h
          rcases patchStep_ok_cases acc strategy scene_id true total i id st st1 hs with
            ⟨hl, rfl⟩ | ⟨fl, pc, p1, hl, hmk, hpk, rfl⟩ <;>
          · rw [he]
            simp [eventsFor, emitProgress_events_true]

theorem eventsFor_mem_bounds (total : ℕ) :
    ∀ (ids : List String) (i : ℕ), i + ids.length ≤ total →
      ∀ ev ∈ eventsFor total i ids, 0 ≤ ev.fraction ∧ ev.fraction < 1 := by
  intro ids
  induction ids with
  | nil =>
      intro i _ ev hev
      simp [eventsFor] at hev
  | cons id rest ih =>
      intro i hle ev hev
      simp only [eventsFor] at hev
      rcases List.mem_cons.mp hev with rfl | hev2
      · have hi : i < total := by
          simp only [List.length_cons] at hle
          omega
        have htot : (0 : ℚ) < (total : ℚ) := by
          exact_mod_cast Nat.pos_of_ne_zero (by omega)
        constructor
        · exact div_nonneg (Nat.cast_nonneg i) (Nat.cast_nonneg total)
        · rw [div_lt_one htot]
          exact_mod_cast hi
      · refine ih (i + 1) ?_ ev hev2
        simp only [List.length_cons] at hle
        omega

theorem stripEvents_patcher (st : LoopState) : (stripEvents st).patcher = st.patcher := rfl

theorem patchStep_strip (acc : PointCloudAccumulator) (strategy : AccumulationStrategy)
    (scene_id : String) (total i : ℕ) (instance_id : String) (st : LoopState) :
    PatchingService.patchStep acc strategy scene_id false total i instance_id (stripEvents st)
      = (PatchingService.patchStep acc strategy scene_id true total i instance_id st).map
          stripEvents := by
  cases hl : lookupGrouped acc.grouped_instances instance_id with
  | none =>
      rw [patchStep_absent acc strategy scene_id false total i instance_id (stripEvents st) hl,
        patchStep_absent acc strategy scene_id true total i instance_id st hl]
      rfl
  | some fl =>
      cases hm : acc.merge scene_id instance_id strategy with
      | error e =>
          rw [patchStep_merge_error acc strategy scene_id false total i instance_id
              (stripEvents st) fl e hl hm,
            patchStep_merge_error acc strategy scene_id true total i instance_id st fl e hl hm]
          rfl
      | ok pc =>
          cases hp : st.patcher.patch_instance instance_id pc with
          | error e =>
              have hp2 : (stripEvents st).patcher.patch_instance instance_id pc
                  = Except.error e := hp
              rw [patchStep_patch_error acc strategy scene_id false total i instance_id
                  (stripEvents st) fl pc e hl hm hp2,
                patchStep_patch_error acc strategy scene_id true total i instance_id st
                  fl pc e hl hm hp]
              rfl
          | ok p1 =>
              have hp2 : (stripEvents st).patcher.patch_instance instance_id pc
                  = Except.ok p1 := hp
              rw [patchStep_success acc strategy scene_id false total i instance_id
                  (stripEvents st) fl pc p1 hl hm hp2,
                patchStep_success acc strategy scene_id true total i instance_id st
                  fl pc p1 hl hm hp]
              rfl

theorem patchLoop_strip (acc : PointCloudAccumulator) (strategy : AccumulationStrategy)
    (scene_id : String) (total : ℕ) :
    ∀ (ids : List String) (i : ℕ) (st : LoopState),
      PatchingService.patchLoop acc strategy scene_id false total i ids (stripEvents st)
        = (PatchingService.patchLoop acc strategy scene_id true total i ids st).map
            stripEvents := by
  intro ids
  induction ids with
  | nil => intro i st; rw [patchLoop_nil, patchLoop_nil]; rfl
  | cons id rest ih =>
      intro i st
      rw [patchLoop_cons, patchLoop_cons, patchStep_strip]
      cases hs : PatchingService.patchStep acc strategy scene_id true total i id st with
      | error e => rfl
      | ok st1 => exact ih (i + 1) st1



theorem patch_frame_eq (cfg : Config) (ds : PointceptDataset)
    (strategy : AccumulationStrategy) (scene_id frame_id : String)
    (instance_ids : List String) (grouped : List (String × List String)) (pb : Bool) :
    PatchingService.patch_frame cfg ds strategy scene_id frame_id instance_ids grouped pb
      = match ds.load_frame_patcher scene_id frame_id with
        | Except.error e => Except.error e
        | Except.ok p0 =>
          match PatchingService.patchLoop (PatchingService.make_accumulator cfg ds grouped)
              strategy scene_id pb instance_ids.length 0 instance_ids
              { patcher := p0, events := [], mergeCalls := [], patchCalls := [],
                mergedBufs := [], patchedBufs := [], store := [] } with
          | Except.error e => Except.error e
          | Except.ok stF =>
              Except.ok { patcher := (emitProgress pb stF 1 "Patching complete!").patcher,
                          result := ((emitProgress pb stF 1 "Patching complete!").patcher.frame,
                            (emitProgress pb stF 1 "Patching complete!").patcher.segments),
                          events := (emitProgress pb stF 1 "Patching complete!").events,
                          mergeCalls := (emitProgress pb stF 1 "Patching complete!").mergeCalls,
                          patchCalls := (emitProgress pb stF 1 "Patching complete!").patchCalls,
                          mergedBufs := (emitProgress pb stF 1 "Patching complete!").mergedBufs,
                          patchedBufs := (emitProgress pb stF 1 "Patching complete!").patchedBufs,
                          store := (emitProgress pb stF 1 "Patching complete!").store } := rfl

theorem patch_frame_strip (cfg : Config) (ds : PointceptDataset)
    (strategy : AccumulationStrategy) (scene_id frame_id : String)
    (instance_ids : List String) (grouped : List (String × List String)) :
    PatchingService.patch_frame cfg ds strategy scene_id frame_id instance_ids grouped false
      = (PatchingService.patch_frame cfg ds strategy scene_id frame_id instance_ids
          grouped true).map stripOutcomeEvents := by
  rw [patch_frame_eq cfg ds strategy scene_id frame_id instance_ids grouped false,
    patch_frame_eq cfg ds strategy scene_id frame_id instance_ids grouped true]
  cases hld : ds.load_frame_patcher scene_id frame_id with
  | error e => rfl
  | ok p0 =>
      dsimp only
      have hs2 : PatchingService.patchLoop (PatchingService.make_accumulator cfg ds grouped)
          strategy scene_id false instance_ids.length 0 instance_ids
          ({ patcher := p0, events := [], mergeCalls := [], patchCalls := [],
             mergedBufs := [], patchedBufs := [], store := [] } : LoopState)
          = (PatchingService.patchLoop (PatchingService.make_accumulator cfg ds grouped)
              strategy scene_id true instance_ids.length 0 instance_ids
              { patcher := p0, events := [], mergeCalls := [], patchCalls := [],
                mergedBufs := [], patchedBufs := [], store := [] }).map stripEvents :=
        patchLoop_strip (PatchingService.make_accumulator cfg ds grouped) strategy scene_id
          instance_ids.length instance_ids 0
          { patcher := p0, events := [], mergeCalls := [], patchCalls := [],
            mergedBufs := [], patchedBufs := [], store := [] }
      rw [hs2]
      cases hlp : PatchingService.patchLoop (PatchingService.make_accumulator cfg ds grouped)
          strategy scene_id true instance_ids.length 0 instance_ids
          { patcher := p0, events := [], mergeCalls := [], patchCalls := [],
            mergedBufs := [], patchedBufs := [], store := [] } with
      | error e => rfl
      | ok stF => rfl

theorem patch_frame_ok_parts (cfg : Config) (ds : PointceptDataset)
    (strategy : AccumulationStrategy) (scene_id frame_id : String)
    (instance_ids : List String) (grouped : List (String × List String))
    (pb : Bool) (out : PatchOutcome)
    (h : PatchingService.patch_frame cfg ds strategy scene_id frame_id instance_ids
      grouped pb = Except.ok out) :
    ∃ p0 stF, ds.load_frame_patcher scene_id frame_id = Except.ok p0
      ∧ PatchingService.patchLoop (PatchingService.make_accumulator cfg ds grouped)
          strategy scene_id pb instance_ids.length 0 instance_ids
          { patcher := p0, events := [], mergeCalls := [], patchCalls := [],
            mergedBufs := [], patchedBufs := [], store := [] } = Except.ok stF
      ∧ out = { patcher := (emitProgress pb stF 1 "Patching complete!").patcher,
                result := ((emitProgress pb stF 1 "Patching complete!").patcher.frame,
                  (emitProgress pb stF 1 "Patching complete!").patcher.segments),
                events := (emitProgress pb stF 1 "Patching complete!").events,
                mergeCalls := (emitProgress pb stF 1 "Patching complete!").mergeCalls,
                patchCalls := (emitProgress pb stF 1 "Patching complete!").patchCalls,
                mergedBufs := (emitProgress pb stF 1 "Patching complete!").mergedBufs,
                patchedBufs := (emitProgress pb stF 1 "Patching complete!").patchedBufs,
                store := (emitProgress pb stF 1 "Patching complete!").store } := by
  rw [patch_frame_eq] at h
  cases hld : ds.load_frame_patcher scene_id frame_id with
  | error e => rw [hld] at h; cases h
  | ok p0 =>
      rw [hld] at h
      dsimp only at h
      cases hlp : PatchingService.patchLoop (PatchingService.make_accumulator cfg ds grouped)
          strategy scene_id pb instance_ids.length 0 instance_ids
          { patcher := p0, events := [], mergeCalls := [], patchCalls := [],
            mergedBufs := [], patchedBufs := [], store := [] } with
      | error e => rw [hlp] at h; cases h
      | ok stF =>
          rw [hlp] at h
          exact ⟨p0, stF, rfl, hlp, (Except.ok.inj h).symm⟩

/-- C1: every instance id in `instance_ids` that is not a key of
`grouped_instances` is skipped by `patch_frame`: exactly the present ids,
in the order given, are merged and patched; no accumulation and no
`patch_instance` call happens for an absent id; the skipping step itself
always succeeds (at most reporting progress), so the call cannot raise on
an absent id's account and the remaining instances are still processed. -/
theorem patch_frame_skips_absent (cfg : Config) (ds : PointceptDataset)
    (strategy : AccumulationStrategy) (scene_id frame_id : String)
    (instance_ids : List String) (grouped : List (String × List String))
    (pb : Bool) (out : PatchOutcome)
    (hok : PatchingService.patch_frame cfg ds strategy scene_id frame_id instance_ids
      grouped pb = Except.ok out) :
    out.mergeCalls = instance_ids.filter (fun id => (lookupGrouped grouped id).isSome)
    ∧ out.patchCalls = instance_ids.filter (fun id => (lookupGrouped grouped id).isSome)
    ∧ (∀ id, lookupGrouped grouped id = none →
        id ∉ out.mergeCalls ∧ id ∉ out.patchCalls)
    ∧ (∀ (total i : ℕ) (st : LoopState) (id : String),
        lookupGrouped grouped id = none →
        PatchingService.patchStep (PatchingService.make_accumulator cfg ds grouped)
          strategy scene_id pb total i id st
          = Except.ok (emitProgress pb st ((i : ℚ) / (total : ℚ))
              ("Patching instance " ++ id ++ "..."))) := by
  obtain ⟨p0, stF, hld, hlp, hout⟩ :=
    patch_frame_ok_parts cfg ds strategy scene_id frame_id instance_ids grouped pb out hok
  obtain ⟨hm, hp⟩ := patchLoop_calls (PatchingService.make_accumulator cfg ds grouped)
    strategy scene_id pb instance_ids.length instance_ids 0 _ stF hlp
  simp only [show (PatchingService.make_accumulator cfg ds grouped).grouped_instances
    = grouped from rfl] at hm hp
  have h1 : out.mergeCalls
      = instance_ids.filter (fun id => (lookupGrouped grouped id).isSome) := by
    rw [hout]
    dsimp only
    rw [emitProgress_mergeCalls, hm]
    simp
  have h2 : out.patchCalls
      = instance_ids.filter (fun id => (lookupGrouped grouped id).isSome) := by
    rw [hout]
    dsimp only
    rw [emitProgress_patchCalls, hp]
    simp
  refine ⟨h1, h2, ?_, ?_⟩
  · intro id hid
    constructor
    · rw [h1]
      intro hmem
      have hs := (List.mem_filter.mp hmem).2
      rw [hid] at hs
      simp at hs
    · rw [h2]
      intro hmem
      have hs := (List.mem_filter.mp hmem).2
      rw [hid] at hs
      simp at hs
  · intro total i st id hid
    exact patchStep_absent (PatchingService.make_accumulator cfg ds grouped) strategy
      scene_id pb total i id st hid

theorem patch_frame_skips_absent_witness :
    demoOutNoCb.mergeCalls
        = ["7", "999"].filter (fun id => (lookupGrouped demoGrouped id).isSome)
    ∧ "999" ∉ demoOutNoCb.mergeCalls ∧ "999" ∉ demoOutNoCb.patchCalls := by
  have h := patch_frame_skips_absent appConfig demoDataset
    AccumulationStrategy.DefaultAccumulatorStrategy "s0" "f0" ["7", "999"]
    demoGrouped false demoOutNoCb rfl
  exact ⟨h.1, (h.2.2.1 "999" rfl).1, (h.2.2.1 "999" rfl).2⟩

/-- C3: on a successful run with a callback and nonempty `instance_ids`,
the callback trace is one event per listed instance with fraction
`i / total` in [0, 1), followed by exactly one final event with fraction
exactly 1.0; calling with no callback is valid and yields the same outcome
minus the event trace. -/
theorem patch_frame_progress_contract (cfg : Config) (ds : PointceptDataset)
    (strategy : AccumulationStrategy) (scene_id frame_id : String)
    (instance_ids : List String) (grouped : List (String × List String))
    (out : PatchOutcome)
    (hne : instance_ids ≠ [])
    (hok : PatchingService.patch_frame cfg ds strategy scene_id frame_id instance_ids
      grouped true = Except.ok out) :
    out.events = eventsFor instance_ids.length 0 instance_ids
        ++ [⟨1, "Patching complete!"⟩]
    ∧ (∀ ev ∈ eventsFor instance_ids.length 0 instance_ids,
        0 ≤ ev.fraction ∧ ev.fraction < 1)
    ∧ out.events.countP (fun ev => decide (ev.fraction = 1)) = 1
    ∧ PatchingService.patch_frame cfg ds strategy scene_id frame_id instance_ids
        grouped false
      = (PatchingService.patch_frame cfg ds strategy scene_id frame_id instance_ids
          grouped true).map stripOutcomeEvents := by
  obtain ⟨p0, stF, hld, hlp, hout⟩ :=
    patch_frame_ok_parts cfg ds strategy scene_id frame_id instance_ids grouped true out hok
  have hev := patchLoop_events (PatchingService.make_accumulator cfg ds grouped)
    strategy scene_id instance_ids.length instance_ids 0 _ stF hlp
  have h1 : out.events = eventsFor instance_ids.length 0 instance_ids
      ++ [⟨1, "Patching complete!"⟩] := by
    rw [hout]
    dsimp only
    rw [emitProgress_events_true, hev]
    simp
  have hb := eventsFor_mem_bounds instance_ids.length instance_ids 0 (by simp)
  refine ⟨h1, hb, ?_,
    patch_frame_strip cfg ds strategy scene_id frame_id instance_ids grouped⟩
  rw [h1, List.countP_append]
  have hz : (eventsFor instance_ids.length 0 instance_ids).countP
      (fun ev => decide (ev.fraction = 1)) = 0 := by
    rw [List.countP_eq_zero]
    intro ev hev2
    have hlt := (hb ev hev2).2
    simp only [decide_eq_true_eq]
    exact ne_of_lt hlt
  rw [hz]
  simp [List.countP_cons]

theorem patch_frame_progress_contract_witness :
    demoOutCb.events = eventsFor 2 0 ["7", "8"] ++ [⟨1, "Patching complete!"⟩]
    ∧ demoOutCb.events.countP (fun ev => decide (ev.fraction = 1)) = 1
    ∧ PatchingService.patch_frame appConfig demoDataset
        AccumulationStrategy.DefaultAccumulatorStrategy "s0" "f0" ["7", "8"]
        demoGrouped false
      = (PatchingService.patch_frame appConfig demoDataset
          AccumulationStrategy.DefaultAccumulatorStrategy "s0" "f0" ["7", "8"]
          demoGrouped true).map stripOutcomeEvents := by
  have h := patch_frame_progress_contract appConfig demoDataset
    AccumulationStrategy.DefaultAccumulatorStrategy "s0" "f0" ["7", "8"]
    demoGrouped demoOutCb (by decide) rfl
  exact ⟨h.1, h.2.2.1, h.2.2.2⟩

/-- C7: exceptions propagate unchanged out of `patch_frame`: a failing
frame-patcher load surfaces as-is; a failing `Accumulator.merge` makes its
loop step fail with the same error; a failing `patch_instance` does the
same; a failing step makes the whole loop fail with the same error; and a
failing loop makes `patch_frame` itself fail with the same error.  No step
is retried or caught, and no rollback of earlier steps' results takes
place (an error discards the run at the point it occurred). -/
theorem patch_frame_propagates_errors (cfg : Config) (ds : PointceptDataset)
    (strategy : AccumulationStrategy) (scene_id frame_id : String)
    (instance_ids : List String) (grouped : List (String × List String))
    (pb : Bool) (e : DataError) :
    (ds.load_frame_patcher scene_id frame_id = Except.error e →
      PatchingService.patch_frame cfg ds strategy scene_id frame_id instance_ids
        grouped pb = Except.error e)
    ∧ (∀ (total i : ℕ) (id : String) (st : LoopState) (fl : List String),
        lookupGrouped grouped id = some fl →
        (PatchingService.make_accumulator cfg ds grouped).merge scene_id id strategy
          = Except.error e →
        PatchingService.patchStep (PatchingService.make_accumulator cfg ds grouped)
          strategy scene_id pb total i id st = Except.error e)
    ∧ (∀ (total i : ℕ) (id : String) (st : LoopState) (fl : List String) (pc : PC),
        lookupGrouped grouped id = some fl →
        (PatchingService.make_accumulator cfg ds grouped).merge scene_id id strategy
          = Except.ok pc →
        st.patcher.patch_instance id pc = Except.error e →
        PatchingService.patchStep (PatchingService.make_accumulator cfg ds grouped)
          strategy scene_id pb total i id st = Except.error e)
    ∧ (∀ (total i : ℕ) (id : String) (rest : List String) (st : LoopState),
        PatchingService.patchStep (PatchingService.make_accumulator cfg ds grouped)
          strategy scene_id pb total i id st = Except.error e →
        PatchingService.patchLoop (PatchingService.make_accumulator cfg ds grouped)
          strategy scene_id pb total i (id :: rest) st = Except.error e)
    ∧ (∀ (p0 : FramePatcher),
        ds.load_frame_patcher scene_id frame_id = Except.ok p0 →
        PatchingService.patchLoop (PatchingService.make_accumulator cfg ds grouped)
          strategy scene_id pb instance_ids.length 0 instance_ids
          { patcher := p0, events := [], mergeCalls := [], patchCalls := [],
            mergedBufs := [], patchedBufs := [], store := [] } = Except.error e →
        PatchingService.patch_frame cfg ds strategy scene_id frame_id instance_ids
          grouped pb = Except.error e) := by
  refine ⟨?_, ?_, ?_, ?_, ?_⟩
  · intro hld
    rw [patch_frame_eq, hld]
  · intro total i id st fl hl hm
    exact patchStep_merge_error (PatchingService.make_accumulator cfg ds grouped)
      strategy scene_id pb total i id st fl e hl hm
  · intro total i id st fl pc hl hm hp
    exact patchStep_patch_error (PatchingService.make_accumulator cfg ds grouped)
      strategy scene_id pb total i id st fl pc e hl hm hp
  · intro total i id rest st hs
    exact patchLoop_step_error (PatchingService.make_accumulator cfg ds grouped)
      strategy scene_id pb total i id rest st e hs
  · intro p0 hld hlp
    rw [patch_frame_eq, hld]
    dsimp only
    rw [hlp]

theorem patch_frame_propagates_errors_witness :
    PatchingService.patch_frame appConfig failLoadDataset
        AccumulationStrategy.DefaultAccumulatorStrategy "s0" "f0" ["7"]
        demoGrouped false = Except.error (DataError.io "missing frame")
    ∧ PatchingService.patch_frame appConfig failPointsDataset
        AccumulationStrategy.DefaultAccumulatorStrategy "s0" "f0" ["7"]
        demoGrouped false = Except.error (DataError.io "missing points")
    ∧ PatchingService.patch_frame appConfig badPatcherDataset
        AccumulationStrategy.DefaultAccumulatorStrategy "s0" "f0" ["7"]
        demoGrouped false
      = Except.error (DataError.malformed "point/segment count mismatch") := by
  refine ⟨?_, ?_, ?_⟩
  · exact (patch_frame_propagates_errors appConfig failLoadDataset
      AccumulationStrategy.DefaultAccumulatorStrategy "s0" "f0" ["7"] demoGrouped
      false (DataError.io "missing frame")).1 rfl
  · refine (patch_frame_propagates_errors appConfig failPointsDataset
      AccumulationStrategy.DefaultAccumulatorStrategy "s0" "f0" ["7"] demoGrouped
      false (DataError.io "missing points")).2.2.2.2 demoPatcher rfl ?_
    refine (patch_frame_propagates_errors appConfig failPointsDataset
      AccumulationStrategy.DefaultAccumulatorStrategy "s0" "f0" ["7"] demoGrouped
      false (DataError.io "missing points")).2.2.2.1 1 0 "7" []
      { patcher := demoPatcher, events := [], mergeCalls := [], patchCalls := [],
        mergedBufs := [], patchedBufs := [], store := [] } ?_
    exact (patch_frame_propagates_errors appConfig failPointsDataset
      AccumulationStrategy.DefaultAccumulatorStrategy "s0" "f0" ["7"] demoGrouped
      false (DataError.io "missing points")).2.1 1 0 "7"
      { patcher := demoPatcher, events := [], mergeCalls := [], patchCalls := [],
        mergedBufs := [], patchedBufs := [], store := [] }
      ["f0", "f2", "f4"] rfl rfl
  · refine (patch_frame_propagates_errors appConfig badPatcherDataset
      AccumulationStrategy.DefaultAccumulatorStrategy "s0" "f0" ["7"] demoGrouped
      false (DataError.malformed "point/segment count mismatch")).2.2.2.2
      badPatcher rfl ?_
    refine (patch_frame_propagates_errors appConfig badPatcherDataset
      AccumulationStrategy.DefaultAccumulatorStrategy "s0" "f0" ["7"] demoGrouped
      false (DataError.malformed "point/segment count mismatch")).2.2.2.1 1 0 "7" []
      { patcher := badPatcher, events := [], mergeCalls := [], patchCalls := [],
        mergedBufs := [], patchedBufs := [], store := [] } ?_
    exact (patch_frame_propagates_errors appConfig badPatcherDataset
      AccumulationStrategy.DefaultAccumulatorStrategy "s0" "f0" ["7"] demoGrouped
      false (DataError.malformed "point/segment count mismatch")).2.2.1 1 0 "7"
      { patcher := badPatcher, events := [], mergeCalls := [], patchCalls := [],
        mergedBufs := [], patchedBufs := [], store := [] }
      ["f0", "f2", "f4"] [[5]] rfl rfl rfl


theorem getq_some_lt {α : Type} :
    ∀ (l : List α) (k : ℕ) (v : α), l.get? k = some v → k < l.length := by
  intro l
  induction l with
  | nil => intro k v h; cases h
  | cons x xs ih =>
      intro k v h
      cases k with
      | zero => simp
      | succ k2 =>
          have := ih k2 v h
          simp only [List.length_cons]
          omega

theorem getq_append_left {α : Type} :
    ∀ (l l2 : List α) (k : ℕ), k < l.length → (l ++ l2).get? k = l.get? k := by
  intro l
  induction l with
  | nil => intro l2 k h; simp at h
  | cons x xs ih =>
      intro l2 k h
      cases k with
      | zero => rfl
      | succ k2 =>
          simp only [List.length_cons] at h
          exact ih l2 k2 (by omega)

theorem getq_append_at {α : Type} :
    ∀ (l : List α) (a : α) (l2 : List α), (l ++ a :: l2).get? l.length = some a := by
  intro l
  induction l with
  | nil => intro a l2; rfl
  | cons x xs ih => intro a l2; exact ih a l2

theorem getq_none {α : Type} :
    ∀ (l : List α) (k : ℕ), l.length ≤ k → l.get? k = none := by
  intro l
  induction l with
  | nil => intro k _; rfl
  | cons x xs ih =>
      intro k h
      cases k with
      | zero => simp at h
      | succ k2 =>
          simp only [List.length_cons] at h
          exact ih k2 (by omega)

theorem getq_concat_cases {α : Type} (l : List α) (a : α) (k : ℕ) (v : α)
    (h : (l ++ [a]).get? k = some v) :
    l.get? k = some v ∨ (k = l.length ∧ v = a) := by
  by_cases hk : k < l.length
  · left
    rw [getq_append_left l [a] k hk] at h
    exact h
  · right
    by_cases hk2 : k = l.length
    · subst hk2
      rw [getq_append_at l a []] at h
      exact ⟨rfl, (Option.some.inj h).symm⟩
    · exfalso
      have hlen : (l ++ [a]).length ≤ k := by
        simp only [List.length_append, List.length_cons, List.length_nil]
        omega
      rw [getq_none (l ++ [a]) k hlen] at h
      cases h


theorem getq_some_mem {α : Type} :
    ∀ (l : List α) (k : ℕ) (v : α), l.get? k = some v → v ∈ l := by
  intro l
  induction l with
  | nil => intro k v h; cases h
  | cons x xs ih =>
      intro k v h
      cases k with
      | zero =>
          have : x = v := Option.some.inj h
          rw [this]
          exact List.mem_cons_self v xs
      | succ k2 => exact List.mem_cons_of_mem x (ih k2 v h)

theorem BufInv_emitProgress (pb : Bool) (st : LoopState) (fr : ℚ) (m : String)
    (h : BufInv st) : BufInv (emitProgress pb st fr m) := by
  unfold emitProgress
  split
  · exact h
  · exact h

theorem BufInv_step (acc : PointCloudAccumulator) (strategy : AccumulationStrategy)
    (scene_id : String) (pb : Bool) (total i : ℕ) (instance_id : String)
    (st st' : LoopState) (h : BufInv st)
    (hs : PatchingService.patchStep acc strategy scene_id pb total i instance_id st
      = Except.ok st') : BufInv st' := by
  rcases patchStep_ok_cases acc strategy scene_id pb total i instance_id st st' hs with
    ⟨hl, rfl⟩ | ⟨fl, pc, p1, hl, hm, hp, rfl⟩
  · exact BufInv_emitProgress pb st _ _ h
  · obtain ⟨h1, h2, h3, h4, h5, h6⟩ := h
    refine ⟨?_, ?_, ?_, ?_, ?_, ?_⟩
    · intro b hb
      simp only [List.length_append, List.length_cons, List.length_nil]
      rcases List.mem_append.mp hb with hb1 | hb2
      · have := h1 b hb1
        omega
      · simp only [List.mem_singleton] at hb2
        omega
    · intro b hb
      simp only [List.length_append, List.length_cons, List.length_nil]
      rcases List.mem_append.mp hb with hb1 | hb2
      · have := h2 b hb1
        omega
      · simp only [List.mem_singleton] at hb2
        omega
    · simp only [List.length_append, List.length_cons, List.length_nil, h3]
    · rw [List.nodup_append]
      refine ⟨h4, List.nodup_singleton _, ?_⟩
      intro b hb
      simp only [List.mem_singleton]
      intro hbeq
      have := h2 b hb
      omega
    · intro b hb
      rcases List.mem_append.mp hb with hb1 | hb2
      · intro hmem
        rcases List.mem_append.mp hmem with hm1 | hm2
        · exact h5 b hb1 hm1
        · have := h2 b hb1
          simp only [List.mem_singleton] at hm2
          omega
      · simp only [List.mem_singleton] at hb2
        subst hb2
        intro hmem
        rcases List.mem_append.mp hmem with hm1 | hm2
        · have := h1 _ hm1
          omega
        · simp only [List.mem_singleton] at hm2
          omega
    · intro k m c hmk hck
      rcases getq_concat_cases st.mergedBufs st.store.length k m hmk with hm1 | ⟨hke, hme⟩
      · rcases getq_concat_cases st.patchedBufs (st.store.length + 1) k c hck with
          hc1 | ⟨hke2, hce⟩
        · obtain ⟨hne2, heq⟩ := h6 k m c hm1 hc1
          have hcb : c < st.store.length := h2 c (getq_some_mem st.patchedBufs k c hc1)
          have hmb : m < st.store.length := h1 m (getq_some_mem st.mergedBufs k m hm1)
          refine ⟨hne2, ?_⟩
          rw [getq_append_left st.store [pc, pc] c hcb,
            getq_append_left st.store [pc, pc] m hmb]
          exact heq
        · exfalso
          have := getq_some_lt st.mergedBufs k m hm1
          omega
      · rcases getq_concat_cases st.patchedBufs (st.store.length + 1) k c hck with
          hc1 | ⟨hke2, hce⟩
        · exfalso
          have := getq_some_lt st.patchedBufs k c hc1
          omega
        · subst hme
          subst hce
          refine ⟨by omega, ?_⟩
          have e1 : (st.store ++ [pc, pc]).get? st.store.length = some pc :=
            getq_append_at st.store pc [pc]
          have e2 : (st.store ++ [pc, pc]).get? (st.store.length + 1) = some pc := by
            have hsplit : st.store ++ [pc, pc] = (st.store ++ [pc]) ++ [pc] := by simp
            rw [hsplit]
            have hlen : (st.store ++ [pc]).length = st.store.length + 1 := by simp
            rw [← hlen]
            exact getq_append_at (st.store ++ [pc]) pc []
          rw [e1, e2]

theorem patchLoop_BufInv (acc : PointCloudAccumulator) (strategy : AccumulationStrategy)
    (scene_id : String) (pb : Bool) (total : ℕ) :
    ∀ (ids : List String) (i : ℕ) (st out : LoopState), BufInv st →
      PatchingService.patchLoop acc strategy scene_id pb total i ids st = Except.ok out →
      BufInv out := by
  intro ids
  induction ids with
  | nil =>
      intro i st out h hl
      rw [patchLoop_nil] at hl
      cases hl
      exact h
  | cons id rest ih =>
      intro i st out h hl
      rw [patchLoop_cons] at hl
      cases hs : PatchingService.patchStep acc strategy scene_id pb total i id st with
      | error e => rw [hs] at hl; cases hl
      | ok st1 =>
          rw [hs] at hl
          exact ih (i + 1) st1 out
            (BufInv_step acc strategy scene_id pb total i id st st1 h hs) hl


/-- C8: for every instance processed by `patch_frame`, the buffer handed to
`patch_instance` is the fresh `np.copy` allocation, distinct from the
buffer returned by `Accumulator.merge` but with equal contents, and no
copied buffer is ever reused across successive `patch_instance` calls or
aliased with any merged buffer. -/
theorem patch_frame_buffer_independence (cfg : Config) (ds : PointceptDataset)
    (strategy : AccumulationStrategy) (scene_id frame_id : String)
    (instance_ids : List String) (grouped : List (String × List String))
    (pb : Bool) (out : PatchOutcome)
    (hok : PatchingService.patch_frame cfg ds strategy scene_id frame_id instance_ids
      grouped pb = Except.ok out) :
    out.mergedBufs.length = out.patchedBufs.length
    ∧ out.patchedBufs.Nodup
    ∧ (∀ b ∈ out.patchedBufs, b ∉ out.mergedBufs)
    ∧ (∀ k m c, out.mergedBufs.get? k = some m → out.patchedBufs.get? k = some c →
        c ≠ m ∧ out.store.get? c = out.store.get? m) := by
  obtain ⟨p0, stF, hld, hlp, hout⟩ :=
    patch_frame_ok_parts cfg ds strategy scene_id frame_id instance_ids grouped pb out hok
  have hinit : BufInv ({ patcher := p0, events := [], mergeCalls := [],
                         patchCalls := [], mergedBufs := [], patchedBufs := [],
                         store := [] } : LoopState) := by
    refine ⟨?_, ?_, rfl, List.nodup_nil, ?_, ?_⟩
    · intro b hb; cases hb
    · intro b hb; cases hb
    · intro b hb; cases hb
    · intro k m c hmk; cases hmk
  have hfin : BufInv stF := patchLoop_BufInv (PatchingService.make_accumulator cfg ds grouped)
    strategy scene_id pb instance_ids.length instance_ids 0 _ stF hinit hlp
  obtain ⟨f1, f2, f3, f4, f5, f6⟩ := hfin
  have hm : out.mergedBufs = stF.mergedBufs := by
    rw [hout]; dsimp only; rw [emitProgress_mergedBufs]
  have hpat : out.patchedBufs = stF.patchedBufs := by
    rw [hout]; dsimp only; rw [emitProgress_patchedBufs]
  have hst : out.store = stF.store := by
    rw [hout]; dsimp only; rw [emitProgress_store]
  rw [hm, hpat, hst]
  exact ⟨f3, f4, f5, f6⟩

theorem patch_frame_buffer_independence_witness :
    demoOutNoCb.mergedBufs.length = demoOutNoCb.patchedBufs.length
    ∧ demoOutNoCb.patchedBufs.Nodup
    ∧ (1 : ℕ) ∉ demoOutNoCb.mergedBufs
    ∧ ((1 : ℕ) ≠ (0 : ℕ)
        ∧ demoOutNoCb.store.get? 1 = demoOutNoCb.store.get? 0) := by
  have h := patch_frame_buffer_independence appConfig demoDataset
    AccumulationStrategy.DefaultAccumulatorStrategy "s0" "f0" ["7", "999"]
    demoGrouped false demoOutNoCb rfl
  exact ⟨h.1, h.2.1, h.2.2.1 1 (by decide), h.2.2.2 0 0 1 rfl rfl⟩
